import Mathlib

/-!
Verification development for the ImagenProxy server (proxy.ts).

The file shallowly embeds the second (current) variant of `proxy.ts`
(the `GeminiImageProxy` class with bearer authentication, lines 246-482 of
the concatenated source): the key rotator `getNextApiKey`, the request
translation and response classification of `generateImage`, the retry loop
`generateWithRetry`, the request handler `handleRequest`, the `Semaphore`,
and the constructor's key parsing.  The upstream HTTP transport is
abstracted as an oracle mapping the index of an upstream call to the
response `fetch` produced for it.  JavaScript objects are embedded as
ordered association lists of JSON values; JavaScript numbers that the code
stores are naturals (the `?? Infinity` default of `getNextApiKey` is
represented by `Option`, with `none` standing for a missing map entry).
-/

/-- JSON values, as parsed by `request.json()` / `response.json()` and
serialized by `JSON.stringify`.  Numbers are restricted to integers; the
proxy never does arithmetic on body fields, so this loses nothing the
claims mention. -/
inductive Json where
  | null : Json
  | bool (b : Bool) : Json
  | num (n : Int) : Json
  | str (s : String) : Json
  | arr (elems : List Json) : Json
  | obj (fields : List (String × Json)) : Json

/-- A JavaScript object value: an ordered list of fields.  Keys are assumed
unique, as produced by `JSON.parse`. -/
abbrev Obj := List (String × Json)

/-- JavaScript property read `o[k]`: `none` models `undefined`. -/
def objGet (o : Obj) (k : String) : Option Json :=
  (o.find? (fun p => p.1 == k)).map (fun p => p.2)

/-- JavaScript `k in o`. -/
def objHas (o : Obj) (k : String) : Bool :=
  o.any (fun p => p.1 == k)

/-- JavaScript `delete o[k]`. -/
def objDelete (o : Obj) (k : String) : Obj :=
  o.filter (fun p => p.1 != k)

/-- JavaScript assignment `o[k] = v`: overwrites the existing field in
place (keeping its position) or appends a new one. -/
def objSet (o : Obj) (k : String) (v : Json) : Obj :=
  if o.any (fun p => p.1 == k) then
    o.map (fun p => if p.1 == k then (k, v) else p)
  else
    o ++ [(k, v)]

/-- JavaScript truthiness of a possibly-absent value, as used by
`!imageRequest.model`, `!geminiRequest.response_format` and the like:
`undefined`, `null`, `false`, `0` and the empty string are falsy. -/
def jsTruthy : Option Json → Bool
  | none => false
  | some Json.null => false
  | some (Json.bool b) => b
  | some (Json.num n) => n != 0
  | some (Json.str s) => s != ""
  | some (Json.arr _) => true
  | some (Json.obj _) => true

/-- Character-level test that a list starts with another list; kernel
computable building block for the JavaScript string predicates below. -/
def charsStartWith : List Char → List Char → Bool
  | [], _ => true
  | _ :: _, [] => false
  | a :: as, b :: bs => a == b && charsStartWith as bs

/-- Character-level substring test. -/
def charsContain (pat : List Char) : List Char → Bool
  | [] => pat.isEmpty
  | c :: rest => charsStartWith pat (c :: rest) || charsContain pat rest

/-- JavaScript `s.includes(pat)`. -/
def jsIncludes (s pat : String) : Bool :=
  charsContain pat.data s.data

/-- JavaScript `s.startsWith(pat)`. -/
def jsStartsWith (s pat : String) : Bool :=
  charsStartWith pat.data s.data

/-- Splits a character list at every occurrence of the separator
character; used to model `String.prototype.split(",")`. -/
def charsSplit (sep : Char) : List Char → List (List Char)
  | [] => [[]]
  | a :: as =>
      match charsSplit sep as with
      | [] => [[a]]
      | g :: gs => if a == sep then [] :: g :: gs else (a :: g) :: gs

/-- JavaScript `s.split(sep)` for a single-character separator. -/
def jsSplit (s : String) (sep : Char) : List String :=
  (charsSplit sep s.data).map List.asString

/-- Truthiness of `key.trim()`: true iff the string has a non-whitespace
character. -/
def trimmedNonempty (s : String) : Bool :=
  s.data.any (fun c => !c.isWhitespace)

/-- Key parsing of the constructor (proxy.ts line 279):
`keysFromEnv.split(",").filter(key => key.trim())`.  Note the keys are kept
untrimmed; only all-whitespace entries are dropped. -/
def parseGeminiKeys (envVal : String) : List String :=
  (jsSplit envVal ',').filter trimmedNonempty

/-- Constructor guard (proxy.ts lines 288-290): an empty parsed key list
aborts construction with an error, so a running process never has an empty
configured pool. -/
def constructorKeysCheck (envVal : String) : Except String (List String) :=
  let keys := parseGeminiKeys envVal
  if keys.length = 0 then
    Except.error "No Gemini API keys provided. Ensure GEMINI_API_KEYS is set in your environment or in a .env file."
  else Except.ok keys

/-- The `keyUsageCount` map: `none` models a key absent from the `Map`. -/
abbrev KeyCounts := String → Option Nat

/-- Constructor initialisation (proxy.ts line 293):
`geminiApiKeys.forEach(key => keyUsageCount.set(key, 0))`. -/
def initCounts (keys : List String) : KeyCounts :=
  keys.foldl (fun c key => fun k => if k = key then some 0 else c k) (fun _ => none)

/-- The comparison `usage < minUsage` of `getNextApiKey`, where `minUsage`
may be the JavaScript `Infinity` (modelled by `none`) coming from the
`?? Infinity` default. -/
def ltJ (u : Nat) (m : Option Nat) : Bool :=
  match m with
  | none => true
  | some mv => decide (u < mv)

/-- The effective usage the loop body reads: `keyUsageCount.get(key) || 0`. -/
def usageOf (counts : KeyCounts) (k : String) : Nat :=
  (counts k).getD 0

/-- The `for (const key of geminiApiKeys)` scan of `getNextApiKey`
(proxy.ts lines 322-325), carrying the running `selectedKey` and
`minUsage`. -/
def getNextApiKeyLoop (counts : KeyCounts) : List String → String → Option Nat → String × Option Nat
  | [], sel, m => (sel, m)
  | key :: ks, sel, m =>
      let usage := usageOf counts key
      if ltJ usage m then getNextApiKeyLoop counts ks key (some usage)
      else getNextApiKeyLoop counts ks sel m

/-- `getNextApiKey` (proxy.ts lines 319-328): selects the first key of the
pool with minimal usage count and increments its count.  On an empty pool
the source reads `geminiApiKeys[0]` (JavaScript `undefined`, modelled by
`""`) and would store `Infinity + 1` under `undefined`; that phantom map
entry is unobservable through the pool, so it is modelled as leaving the
map unchanged. -/
def getNextApiKey (keys : List String) (counts : KeyCounts) : String × KeyCounts :=
  let sel0 := keys.headD ""
  let m0 := counts sel0
  let r := getNextApiKeyLoop counts keys sel0 m0
  match r.2 with
  | some mv => (r.1, fun k => if k = r.1 then some (mv + 1) else counts k)
  | none => (r.1, counts)

/-- Model-name mapping table of `mapModelName` (proxy.ts lines 334-341):
mapped names are rewritten, everything else passes through (the
`modelMapping[originalModel] || originalModel` fallback). -/
def mapModelName (m : String) : String :=
  if m = "imagen-3" then "imagen-3.0-generate-002"
  else if m = "imagen-4" then "imagen-4.0-generate-preview-06-06"
  else if m = "imagen-4-ultra" then "imagen-4.0-ultra-generate-preview-06-06"
  else m

/-- `mapModelName(originalRequest.model)` on the raw JSON field: the table
only matches the three mapped strings, so any non-string value falls
through unchanged; an absent field (JavaScript `undefined`, unreachable
behind the handler's truthiness validation) maps to `null`. -/
def mapModelValue : Option Json → Json
  | some (Json.str s) => Json.str (mapModelName s)
  | some v => v
  | none => Json.null

/-- A tiny mutable-object heap: object references are indices.  It makes
the aliasing of `generateImage` explicit — the function first copies the
inbound object (`{ ...originalRequest }`) and then mutates only the
copy. -/
structure Heap where
  objs : List Obj

/-- Dereference an object; a dangling reference yields the empty object. -/
def Heap.getObj (h : Heap) (r : Nat) : Obj :=
  h.objs.getD r []

/-- Overwrite the object at a reference. -/
def Heap.setObj (h : Heap) (r : Nat) (o : Obj) : Heap :=
  ⟨h.objs.set r o⟩

/-- Allocate a fresh object, returning its reference. -/
def Heap.alloc (h : Heap) (o : Obj) : Heap × Nat :=
  (⟨h.objs ++ [o]⟩, h.objs.length)

/-- The translation steps of `generateImage` (proxy.ts lines 344-358) on
the heap: copy the original request, delete a `seed` field from the copy
if present, rewrite `model` (read from the original), and default
`response_format` to `"b64_json"` when falsy.  Returns the heap and the
reference of the outbound `geminiRequest` object. -/
def prepareGeminiRequest (h : Heap) (reqRef : Nat) : Heap × Nat :=
  let a := h.alloc (h.getObj reqRef)
  let h1 := a.1
  let g := a.2
  let h2 := if objHas (h1.getObj g) "seed"
            then h1.setObj g (objDelete (h1.getObj g) "seed") else h1
  let h3 := h2.setObj g
    (objSet (h2.getObj g) "model" (mapModelValue (objGet (h2.getObj reqRef) "model")))
  let h4 := if !(jsTruthy (objGet (h3.getObj g) "response_format"))
            then h3.setObj g (objSet (h3.getObj g) "response_format" (Json.str "b64_json"))
            else h3
  (h4, g)

/-- The outbound body `generateImage` serializes into the `fetch`, as a
pure function of the inbound request (run on a one-object heap). -/
def translatedBody (req : Obj) : Obj :=
  let p := prepareGeminiRequest ⟨[req]⟩ 0
  p.1.getObj p.2

/-- What one `fetch` to the upstream endpoint produced: either an HTTP
response (status, headers, the text `.text()` would read and the JSON
`.json()` would parse) or a transport failure whose message the rejected
promise carries. -/
inductive FetchResult where
  | ok (status : Nat) (headers : List (String × String)) (bodyText : String) (bodyJson : Json)
  | networkError (msg : String)

/-- A JavaScript `Error`, identified by its message — the code dispatches
on messages via `includes`/`startsWith`, never on error subclasses. -/
structure JsError where
  message : String
deriving DecidableEq

/-- Response classification of `generateImage` (proxy.ts lines 363-378):
2xx (`response.ok`) returns the parsed JSON; 429, 401 and >= 500 throw the
fixed marker messages; any other non-2xx status throws
`UPSTREAM_API_ERROR: <status> - <body text>`.  A transport failure
propagates the rejection as-is. -/
def classifyResponse : FetchResult → Except JsError Json
  | FetchResult.networkError m => Except.error ⟨m⟩
  | FetchResult.ok status _ bodyText bodyJson =>
      if 200 ≤ status ∧ status ≤ 299 then Except.ok bodyJson
      else if status = 429 then Except.error ⟨"RATE_LIMITED"⟩
      else if status = 401 then Except.error ⟨"INVALID_API_KEY"⟩
      else if 500 ≤ status then Except.error ⟨"SERVER_ERROR"⟩
      else Except.error ⟨"UPSTREAM_API_ERROR: " ++ toString status ++ " - " ++ bodyText⟩

/-- One `generateImage` call (proxy.ts lines 343-379): builds the outbound
body from the inbound request and classifies the fetch outcome supplied by
the transport oracle.  Returns the classification and the body that was
sent. -/
def generateImage (req : Obj) (fr : FetchResult) : Except JsError Json × Obj :=
  (classifyResponse fr, translatedBody req)

/-- Configuration struct of the proxy (proxy.ts lines 277-286), restricted
to the fields the embedded code reads. -/
structure Config where
  geminiApiKeys : List String
  proxyAuthKeys : List String
  maxRetries : Nat
  retryDelay : Nat
  maxConcurrent : Nat

/-- The `while (usedKeys.has(apiKey) && usedKeys.size < keys.length)`
loop of `generateWithRetry` (proxy.ts lines 388-390).  The source loop has
no syntactic bound (it terminates because every `getNextApiKey` call
strictly increases the selected key's count); the explicit fuel makes the
embedding total, and the claims hold for every fuel value. -/
def whileUsed (keys : List String) (used : List String) : Nat → String → KeyCounts → String × KeyCounts
  | 0, k, c => (k, c)
  | fuel + 1, k, c =>
      if k ∈ used ∧ used.length < keys.length then
        let r := getNextApiKey keys c
        whileUsed keys used fuel r.1 r.2
      else (k, c)

/-- Key selection of one retry-loop iteration (proxy.ts lines 386-391):
take the rotator's next key, clear the per-request used set once it covers
the whole pool, skip keys already used by this request, and record the
chosen key as used. -/
def attemptSelect (keys : List String) (fuel : Nat) (counts : KeyCounts) (used : List String) :
    String × KeyCounts × List String :=
  let r := getNextApiKey keys counts
  let used1 := if keys.length ≤ used.length then [] else used
  let w := whileUsed keys used1 fuel r.1 r.2
  let used2 := if w.1 ∈ used1 then used1 else used1 ++ [w.1]
  (w.1, w.2, used2)

/-- Record of one attempt of the retry loop: the key used, the body sent
upstream, the classified outcome, and how long the loop slept afterwards
(`none` when it did not sleep). -/
structure AttemptRec where
  key : String
  sent : Obj
  outcome : Except JsError Json
  slept : Option Nat

/-- Result of a `generateWithRetry` run: the final result, the usage-count
map after the run, and the per-attempt trace. -/
structure RetryRun where
  result : Except JsError Json
  counts : KeyCounts
  attempts : List AttemptRec

/-- The retry loop of `generateWithRetry` (proxy.ts lines 381-411),
recursing on the remaining attempts.  `attempt` is the zero-based loop
index; the transport oracle is indexed by it, since each iteration makes
exactly one upstream call.  An error whose message contains
`RATE_LIMITED` sleeps `retryDelay * 2 ^ attempt` (even on the last
attempt); any other error sleeps a flat `retryDelay` unless this was the
last attempt.  When attempts run out the loop fails with the last error,
or `Max retries exceeded` when none was recorded. -/
def generateWithRetryAux (cfg : Config) (req : Obj) (oracle : Nat → FetchResult) (fuel : Nat) :
    Nat → Nat → KeyCounts → List String → Option JsError → RetryRun
  | 0, _, counts, _, lastErr =>
      ⟨Except.error (lastErr.getD ⟨"Max retries exceeded"⟩), counts, []⟩
  | left + 1, attempt, counts, used, _lastErr =>
      let s := attemptSelect cfg.geminiApiKeys fuel counts used
      let gi := generateImage req (oracle attempt)
      match gi.1 with
      | Except.ok j => ⟨Except.ok j, s.2.1, [⟨s.1, gi.2, Except.ok j, none⟩]⟩
      | Except.error e =>
          let slept : Option Nat :=
            if jsIncludes e.message "RATE_LIMITED" then some (cfg.retryDelay * 2 ^ attempt)
            else if attempt < cfg.maxRetries - 1 then some cfg.retryDelay
            else none
          let rest := generateWithRetryAux cfg req oracle fuel left (attempt + 1) s.2.1 s.2.2 (some e)
          ⟨rest.result, rest.counts, ⟨s.1, gi.2, Except.error e, slept⟩ :: rest.attempts⟩

/-- `generateWithRetry` (proxy.ts lines 381-411), entered with a fresh
per-request used set and no recorded error. -/
def generateWithRetry (cfg : Config) (req : Obj) (oracle : Nat → FetchResult) (fuel : Nat)
    (counts : KeyCounts) : RetryRun :=
  generateWithRetryAux cfg req oracle fuel cfg.maxRetries 0 counts [] none

/-- Observable side effects of one inbound request, in the order the
handler performs them. -/
inductive Event where
  | semAcquire : Event
  | semRelease : Event
  | upstream (key : String) (sent : Obj) : Event
  | sleep (ms : Nat) : Event

/-- True exactly on upstream-call events. -/
def Event.isUpstream : Event → Bool
  | Event.upstream _ _ => true
  | _ => false

/-- The events one attempt record contributes: the upstream call, then the
sleep if the loop slept. -/
def eventsOfAttempt (a : AttemptRec) : List Event :=
  Event.upstream a.key a.sent ::
    (match a.slept with
     | some ms => [Event.sleep ms]
     | none => [])

/-- All events of a retry run. -/
def eventsOfRun (r : RetryRun) : List Event :=
  (r.attempts.map eventsOfAttempt).flatten

/-- An inbound HTTP request as the handler sees it: method, URL pathname,
the `Authorization` header (absent = `none`), and the result of
`request.json()` (a thrown parse error is the `Except.error` case carrying
the exception's message). -/
structure InboundRequest where
  method : String
  path : String
  authHeader : Option String
  jsonBody : Except String Obj

/-- A response descriptor: status, headers, and the JSON value the body
serializes (204 responses carry `none`, matching `new Response(null)`). -/
structure ResponseDesc where
  status : Nat
  headers : List (String × String)
  body : Option Json

/-- The error envelope `{ error: { message, type } }`. -/
def errEnvelope (message ty : String) : Json :=
  Json.obj [("error", Json.obj [("message", Json.str message), ("type", Json.str ty)])]

/-- The `Content-Type: application/json` header. -/
def jsonCT : String × String := ("Content-Type", "application/json")

/-- The injected CORS header. -/
def corsStar : String × String := ("Access-Control-Allow-Origin", "*")

/-- The fixed CORS-preflight headers (proxy.ts line 415). -/
def corsPreflightHeaders : List (String × String) :=
  [("Access-Control-Allow-Origin", "*"),
   ("Access-Control-Allow-Methods", "POST, OPTIONS"),
   ("Access-Control-Allow-Headers", "Content-Type, Authorization")]

/-- `isAuthorized` (proxy.ts lines 303-317): `none` means authorized, and
`some r` is the 401 rejection response.  Auth is enabled when the
configured token set is non-empty; the header must be
`Bearer <token>` with a truthy token that is in the set. -/
def isAuthorized (cfg : Config) (req : InboundRequest) : Option ResponseDesc :=
  if cfg.proxyAuthKeys = [] then none
  else
    match req.authHeader with
    | none =>
        some ⟨401, [jsonCT], some (errEnvelope "Authorization header is missing." "auth_error")⟩
    | some h =>
        let parts := h.splitOn " "
        let ty := parts.headD ""
        let token := (parts.get? 1).getD ""
        if ty ≠ "Bearer" ∨ token = "" then
          some ⟨401, [jsonCT],
            some (errEnvelope "Authorization header must be in \x27Bearer <token>\x27 format." "auth_error")⟩
        else if token ∉ cfg.proxyAuthKeys then
          some ⟨401, [jsonCT], some (errEnvelope "Invalid authorization token." "auth_error")⟩
        else none

/-- Result of one `handleRequest` call: the response, the usage-count map
afterwards, and the trace of observable effects. -/
structure HandlerRun where
  resp : ResponseDesc
  counts : KeyCounts
  events : List Event

/-- `handleRequest` (proxy.ts lines 413-448): OPTIONS preflight, auth
check, route match, body parse, truthiness validation of `model` and
`prompt`, then the semaphore-scoped retry loop.  A success returns 200
with the upstream JSON re-serialized; a failure (including a body-parse
exception) is caught and mapped to the `api_error` envelope whose status
is 400 when the error message starts with `UPSTREAM_API_ERROR` and 500
otherwise. -/
def handleRequest (cfg : Config) (req : InboundRequest) (oracle : Nat → FetchResult)
    (counts : KeyCounts) (fuel : Nat) : HandlerRun :=
  if req.method = "OPTIONS" then ⟨⟨204, corsPreflightHeaders, none⟩, counts, []⟩
  else
    match isAuthorized cfg req with
    | some r => ⟨r, counts, []⟩
    | none =>
        if req.method ≠ "POST" ∨ req.path ≠ "/v1/images/generations" then
          ⟨⟨404, [jsonCT],
            some (errEnvelope "Not Found. The correct endpoint is POST /v1/images/generations"
              "invalid_request_error")⟩, counts, []⟩
        else
          match req.jsonBody with
          | Except.error msg =>
              ⟨⟨if jsStartsWith msg "UPSTREAM_API_ERROR" then 400 else 500, [jsonCT, corsStar],
                some (errEnvelope msg "api_error")⟩, counts, []⟩
          | Except.ok obj =>
              if !(jsTruthy (objGet obj "model")) || !(jsTruthy (objGet obj "prompt")) then
                ⟨⟨400, [jsonCT],
                  some (errEnvelope "Missing required fields: model and prompt"
                    "invalid_request_error")⟩, counts, []⟩
              else
                let r := generateWithRetry cfg obj oracle fuel counts
                let evs := Event.semAcquire :: (eventsOfRun r ++ [Event.semRelease])
                match r.result with
                | Except.ok j => ⟨⟨200, [jsonCT, corsStar], some j⟩, r.counts, evs⟩
                | Except.error e =>
                    ⟨⟨if jsStartsWith e.message "UPSTREAM_API_ERROR" then 400 else 500,
                      [jsonCT, corsStar], some (errEnvelope e.message "api_error")⟩, r.counts, evs⟩

/-- The `Semaphore` state (proxy.ts lines 459-471): the permit counter and
the FIFO queue of waiting callers (identified by opaque tokens; `acquire`
appends, `release` shifts). -/
structure Semaphore where
  permits : Int
  waiting : List Nat

/-- What `acquire` did for its caller. -/
inductive AcquireOutcome where
  | acquired : AcquireOutcome
  | suspended : AcquireOutcome
deriving DecidableEq

/-- `Semaphore.acquire` (proxy.ts lines 463-466): with a permit available
it consumes one and returns immediately; otherwise the caller's resolver
is appended to the waiting queue and the caller suspends. -/
def Semaphore.acquire (s : Semaphore) (caller : Nat) : Semaphore × AcquireOutcome :=
  if 0 < s.permits then (⟨s.permits - 1, s.waiting⟩, AcquireOutcome.acquired)
  else (⟨s.permits, s.waiting ++ [caller]⟩, AcquireOutcome.suspended)

/-- `Semaphore.release` (proxy.ts lines 467-470): increment the permit
counter, then, if anyone is waiting, decrement it again and resume the
oldest waiter (returned as `some`). -/
def Semaphore.release (s : Semaphore) : Semaphore × Option Nat :=
  let p := s.permits + 1
  match s.waiting with
  | [] => (⟨p, []⟩, none)
  | w :: ws => (⟨p - 1, ws⟩, some w)

/-- A one-object heap holding a request with a `seed` field. -/
def heapSeedW : Heap :=
  ⟨[[("model", Json.str "imagen-4"), ("prompt", Json.str "a cat"), ("seed", Json.num 42)]]⟩

/-- The well-formed inbound route: a POST to `/v1/images/generations`
carrying the given parse result. -/
def postReq (b : Except String Obj) : InboundRequest :=
  ⟨"POST", "/v1/images/generations", none, b⟩

/-- A usage map with distinct counts, for the C5 witness. -/
def countsC5W : KeyCounts :=
  fun k => if k = "a" then some 2 else if k = "b" then some 1 else none

/-- A fetch outcome the classifier accepts (a 2xx response). -/
def successFetch (fr : FetchResult) : Prop :=
  ∃ j, classifyResponse fr = Except.ok j

/-- N inbound requests served back to back, each running one
`generateWithRetry`; returns the usage-count map after all of them. -/
def serveSucc (cfg : Config) (req : Obj) (oracle : Nat → FetchResult) (fuel : Nat) :
    Nat → KeyCounts → KeyCounts
  | 0, c => c
  | n + 1, c => serveSucc cfg req oracle fuel n ((generateWithRetry cfg req oracle fuel c).counts)

/-- The load-balancing invariant: all pool usage counts sit in a window
`{m, m+1}`. -/
def BalancedCounts (keys : List String) (c : KeyCounts) : Prop :=
  ∃ m, ∀ k ∈ keys, c k = some m ∨ c k = some (m + 1)

/-- A minimal valid request body. -/
def reqW : Obj := [("model", Json.str "m"), ("prompt", Json.str "p")]

/-- A transport oracle whose every call returns HTTP 200. -/
def oracleOk : Nat → FetchResult := fun _ => FetchResult.ok 200 [] "" (Json.obj [])

/-- A two-key configuration with the default retry settings. -/
def cfgTwoKeys : Config := ⟨["a", "b"], [], 3, 1000, 10⟩

/-- A one-key configuration with three attempts and base delay 1000. -/
def cfgOneKey3 : Config := ⟨["k"], [], 3, 1000, 10⟩

/-- An upstream that always answers 404 with the body text
`RATE_LIMITED` — a GenericUpstreamError by the spec's classification. -/
def oracle404RL : Nat → FetchResult :=
  fun _ => FetchResult.ok 404 [] "RATE_LIMITED" Json.null

/-- Attempt 1 of the 404/`RATE_LIMITED` run, as recorded by the loop. -/
def attemptC7W : AttemptRec :=
  ⟨"k", [("model", Json.str "m"), ("prompt", Json.str "p"), ("response_format", Json.str "b64_json")],
   Except.error ⟨"UPSTREAM_API_ERROR: 404 - RATE_LIMITED"⟩, some 2000⟩

/-- An upstream that always answers 403 — by the spec an
InvalidCredential outcome. -/
def oracle403 : Nat → FetchResult :=
  fun _ => FetchResult.ok 403 [] "bad" Json.null

/-- A configuration whose credential pool is empty (unreachable through
the constructor, which throws on an empty parsed key list). -/
def cfgNoKeys : Config := ⟨[], [], 3, 1000, 10⟩

/-- An upstream answering 201 with a distinctive header. -/
def oracle201 : Nat → FetchResult :=
  fun _ => FetchResult.ok 201 [("X-Upstream", "yes")] "" (Json.obj [])

/-- An upstream answering 404 with body text `nf`. -/
def oracle404 : Nat → FetchResult :=
  fun _ => FetchResult.ok 404 [] "nf" Json.null

lemma Heap.length_setObj (h : Heap) (i : Nat) (o : Obj) :
    (h.setObj i o).objs.length = h.objs.length := by
  simp [Heap.setObj]

lemma Heap.getObj_setObj_ne (h : Heap) {i j : Nat} (o : Obj) (hij : i ≠ j) :
    (h.setObj i o).getObj j = h.getObj j := by
  simp [Heap.getObj, Heap.setObj, List.getD_eq_getD_get?, List.get?_eq_getElem?,
    List.getElem?_set_ne hij]

lemma Heap.getObj_setObj_self (h : Heap) {i : Nat} (o : Obj) (hi : i < h.objs.length) :
    (h.setObj i o).getObj i = o := by
  simp [Heap.getObj, Heap.setObj, List.getD_eq_getD_get?, List.get?_eq_getElem?,
    List.getElem?_set_self hi]

lemma Heap.getObj_append_new (objs : List Obj) (o : Obj) :
    Heap.getObj ⟨objs ++ [o]⟩ objs.length = o := by
  simp [Heap.getObj, List.getD_eq_getD_get?, List.get?_eq_getElem?, List.getElem?_concat_length]

lemma Heap.getObj_append_old (objs : List Obj) (o : Obj) {j : Nat} (hj : j < objs.length) :
    Heap.getObj ⟨objs ++ [o]⟩ j = Heap.getObj ⟨objs⟩ j := by
  simp [Heap.getObj, List.getD_eq_getD_get?, List.get?_eq_getElem?,
    List.getElem?_append_left hj]

lemma objHas_objDelete_self (o : Obj) (k : String) :
    objHas (objDelete o k) k = false := by
  induction o with
  | nil => rfl
  | cons p t ih =>
      by_cases hp : p.1 == k
      · have hb : (p.1 != k) = false := by simp [bne, hp]
        simp only [objDelete, objHas, List.filter_cons, hb, Bool.false_eq_true, if_false]
        simp only [objDelete, objHas] at ih
        exact ih
      · have hb : (p.1 != k) = true := by
          simp only [bne, Bool.not_eq_true', Bool.not_eq_false]
          exact Bool.not_eq_true _ ▸ Bool.of_not_eq_true hp
        simp only [objDelete, objHas, List.filter_cons, hb, if_true, List.any_cons]
        simp only [objDelete, objHas] at ih
        simp [ih, hp]

lemma any_map_objSet (t : Obj) (k s : String) (v : Json) :
    (t.map (fun p => if p.1 == k then (k, v) else p)).any (fun p => p.1 == s)
      = t.any (fun p => p.1 == s) := by
  induction t with
  | nil => rfl
  | cons p t ih =>
      simp only [List.map_cons, List.any_cons, ih]
      by_cases hp : p.1 == k
      · have hp1 : p.1 = k := by simpa using hp
        simp [hp, hp1]
      · simp [hp]

lemma objHas_objSet_ne (o : Obj) (k s : String) (v : Json) (hks : k ≠ s) :
    objHas (objSet o k v) s = objHas o s := by
  by_cases h : o.any (fun p => p.1 == k)
  · simp only [objHas, objSet, h, if_true]
    exact any_map_objSet o k s v
  · simp [objHas, objSet, h, List.any_append, hks]

/-- C8 For every inbound request body that contains a `seed` field, the
translated request `generateImage` sends upstream contains no `seed`
field, and the inbound request object itself is left unmodified (the code
mutates only the freshly allocated copy `{ ...originalRequest }`). -/
theorem claim_C8_theorem (h : Heap) (r : Nat) (hr : r < h.objs.length)
    (hseed : objHas (h.getObj r) "seed" = true) :
    (prepareGeminiRequest h r).1.getObj r = h.getObj r ∧
    objHas ((prepareGeminiRequest h r).1.getObj (prepareGeminiRequest h r).2) "seed" = false := by
  have hne : h.objs.length ≠ r := (Nat.ne_of_lt hr).symm
  have g1 : Heap.getObj ⟨h.objs ++ [h.getObj r]⟩ h.objs.length = h.getObj r :=
    Heap.getObj_append_new _ _
  have g1r : Heap.getObj ⟨h.objs ++ [h.getObj r]⟩ r = h.getObj r :=
    Heap.getObj_append_old _ _ hr
  have hl1 : h.objs.length < (⟨h.objs ++ [h.getObj r]⟩ : Heap).objs.length := by simp
  constructor
  · simp only [prepareGeminiRequest, Heap.alloc]
    split_ifs <;>
      simp [Heap.getObj_setObj_ne _ _ hne, g1r]
  · simp only [prepareGeminiRequest, Heap.alloc, g1]
    rw [if_pos hseed]
    have e2n : (Heap.setObj ⟨h.objs ++ [h.getObj r]⟩ h.objs.length
        (objDelete (h.getObj r) "seed")).getObj h.objs.length = objDelete (h.getObj r) "seed" :=
      Heap.getObj_setObj_self _ _ hl1
    have e2r : (Heap.setObj ⟨h.objs ++ [h.getObj r]⟩ h.objs.length
        (objDelete (h.getObj r) "seed")).getObj r = h.getObj r :=
      (Heap.getObj_setObj_ne _ _ hne).trans g1r
    rw [e2n, e2r]
    have hl2 : h.objs.length < ((Heap.setObj ⟨h.objs ++ [h.getObj r]⟩ h.objs.length
        (objDelete (h.getObj r) "seed"))).objs.length := by
      rw [Heap.length_setObj]; exact hl1
    have e3n : ((Heap.setObj ⟨h.objs ++ [h.getObj r]⟩ h.objs.length
        (objDelete (h.getObj r) "seed")).setObj h.objs.length
        (objSet (objDelete (h.getObj r) "seed") "model"
          (mapModelValue (objGet (h.getObj r) "model")))).getObj h.objs.length
        = objSet (objDelete (h.getObj r) "seed") "model"
          (mapModelValue (objGet (h.getObj r) "model")) :=
      Heap.getObj_setObj_self _ _ hl2
    rw [e3n]
    by_cases h4c : (!(jsTruthy (objGet (objSet (objDelete (h.getObj r) "seed") "model"
        (mapModelValue (objGet (h.getObj r) "model"))) "response_format"))) = true
    · rw [if_pos h4c]
      have hl3 : h.objs.length < (((Heap.setObj ⟨h.objs ++ [h.getObj r]⟩ h.objs.length
          (objDelete (h.getObj r) "seed")).setObj h.objs.length
          (objSet (objDelete (h.getObj r) "seed") "model"
            (mapModelValue (objGet (h.getObj r) "model"))))).objs.length := by
        rw [Heap.length_setObj]; exact hl2
      rw [Heap.getObj_setObj_self _ _ hl3]
      rw [objHas_objSet_ne _ _ _ _ (by decide), objHas_objSet_ne _ _ _ _ (by decide)]
      exact objHas_objDelete_self _ _
    · rw [if_neg h4c, e3n]
      rw [objHas_objSet_ne _ _ _ _ (by decide)]
      exact objHas_objDelete_self _ _

/-- C8 witness: the theorem applied to a concrete request carrying
`seed: 42`. -/
theorem claim_C8_witness :
    (0 < heapSeedW.objs.length ∧ objHas (heapSeedW.getObj 0) "seed" = true) ∧
    ((prepareGeminiRequest heapSeedW 0).1.getObj 0 = heapSeedW.getObj 0 ∧
     objHas ((prepareGeminiRequest heapSeedW 0).1.getObj (prepareGeminiRequest heapSeedW 0).2)
       "seed" = false) :=
  ⟨⟨by decide, by decide⟩, claim_C8_theorem heapSeedW 0 (by decide) (by decide)⟩

/-- C9 The `Semaphore` contract: `acquire` consumes a permit and returns
immediately when one is available and otherwise appends the caller to the
waiting queue (suspending it); `release` hands the permit directly to the
oldest waiter when the queue is non-empty — leaving the available-permit
counter unchanged — and otherwise returns the permit to the pool. -/
theorem claim_C9_theorem (s : Semaphore) (caller : Nat) :
    (0 < s.permits →
      s.acquire caller = (⟨s.permits - 1, s.waiting⟩, AcquireOutcome.acquired)) ∧
    (¬ 0 < s.permits →
      s.acquire caller = (⟨s.permits, s.waiting ++ [caller]⟩, AcquireOutcome.suspended)) ∧
    (∀ w ws, s.waiting = w :: ws → s.release = (⟨s.permits, ws⟩, some w)) ∧
    (s.waiting = [] → s.release = (⟨s.permits + 1, []⟩, none)) := by
  refine ⟨?_, ?_, ?_, ?_⟩
  · intro hp; simp [Semaphore.acquire, hp]
  · intro hp; simp [Semaphore.acquire, hp]
  · intro w ws hw
    simp [Semaphore.release, hw, Int.add_sub_cancel]
  · intro hw; simp [Semaphore.release, hw]

/-- C9 witness: the theorem applied to a semaphore with one free permit
(immediate acquire) and to one with waiters `[5, 7]` (FIFO wake-up with
the permit counter unchanged). -/
theorem claim_C9_witness :
    (0 : Int) < 1 ∧
    Semaphore.acquire ⟨1, []⟩ 0 = (⟨0, []⟩, AcquireOutcome.acquired) ∧
    Semaphore.release ⟨0, [5, 7]⟩ = (⟨0, [7]⟩, some 5) := by
  refine ⟨by decide, ?_, ?_⟩
  · have h := (claim_C9_theorem ⟨1, []⟩ 0).1 (by decide)
    simpa using h
  · have h := (claim_C9_theorem ⟨0, [5, 7]⟩ 0).2.2.1 5 [7] rfl
    simpa using h

/-- C10 A POST body whose `model` or `prompt` is present but falsy (for
example the empty string) is rejected exactly like a missing field: 400
with the `invalid_request_error` envelope, with an empty effect trace — no
semaphore permit is acquired and no upstream call is made — because the
validation is the truthiness test `!imageRequest.model ||
!imageRequest.prompt`. -/
theorem claim_C10_theorem (cfg : Config) (obj : Obj) (oracle : Nat → FetchResult)
    (counts : KeyCounts) (fuel : Nat) (hAuth : cfg.proxyAuthKeys = [])
    (hFalsy : (!(jsTruthy (objGet obj "model")) || !(jsTruthy (objGet obj "prompt"))) = true) :
    handleRequest cfg (postReq (Except.ok obj)) oracle counts fuel =
      ⟨⟨400, [jsonCT],
        some (errEnvelope "Missing required fields: model and prompt" "invalid_request_error")⟩,
       counts, []⟩ := by
  simp [handleRequest, postReq, isAuthorized, hAuth, hFalsy]

/-- C10 witness: the theorem applied to a body whose `model` is present
but the empty string. -/
theorem claim_C10_witness :
    ((!(jsTruthy (objGet [("model", Json.str ""), ("prompt", Json.str "p")] "model")) ||
      !(jsTruthy (objGet [("model", Json.str ""), ("prompt", Json.str "p")] "prompt"))) = true) ∧
    handleRequest ⟨["k"], [], 3, 1000, 10⟩
        (postReq (Except.ok [("model", Json.str ""), ("prompt", Json.str "p")]))
        (fun _ => FetchResult.ok 200 [] "" Json.null) (initCounts ["k"]) 0 =
      ⟨⟨400, [jsonCT],
        some (errEnvelope "Missing required fields: model and prompt" "invalid_request_error")⟩,
       initCounts ["k"], []⟩ :=
  ⟨by decide,
   claim_C10_theorem ⟨["k"], [], 3, 1000, 10⟩ [("model", Json.str ""), ("prompt", Json.str "p")]
     (fun _ => FetchResult.ok 200 [] "" Json.null) (initCounts ["k"]) 0 rfl (by decide)⟩

lemma ltJ_none (u : Nat) : ltJ u none = true := rfl

lemma ltJ_some_true {u mv : Nat} : ltJ u (some mv) = true ↔ u < mv := by simp [ltJ]

lemma ltJ_some_false {u mv : Nat} : ltJ u (some mv) = false ↔ mv ≤ u := by
  simp [ltJ, Nat.not_lt]

lemma loop_char (counts : KeyCounts) :
    ∀ (ks : List String) (sel : String) (m : Option Nat),
      (getNextApiKeyLoop counts ks sel m = (sel, m) ∧
        ∀ k ∈ ks, ltJ (usageOf counts k) m = false)
      ∨ (∃ l₁ l₂ sel',
          getNextApiKeyLoop counts ks sel m = (sel', some (usageOf counts sel')) ∧
          ks = l₁ ++ sel' :: l₂ ∧
          ltJ (usageOf counts sel') m = true ∧
          (∀ k ∈ l₁, usageOf counts sel' < usageOf counts k) ∧
          (∀ k ∈ l₂, usageOf counts sel' ≤ usageOf counts k)) := by
  intro ks
  induction ks with
  | nil =>
      intro sel m
      left
      exact ⟨rfl, by simp⟩
  | cons key ks ih =>
      intro sel m
      by_cases hlt : ltJ (usageOf counts key) m = true
      · have hstep : getNextApiKeyLoop counts (key :: ks) sel m
            = getNextApiKeyLoop counts ks key (some (usageOf counts key)) := by
          simp only [getNextApiKeyLoop, hlt, if_true]
        rcases ih key (some (usageOf counts key)) with ⟨heq, hall⟩ |
          ⟨l₁, l₂, sel', heq, hdec, hltm, hpre, hsuf⟩
        · right
          refine ⟨[], ks, key, ?_, by simp, hlt, by simp, ?_⟩
          · rw [hstep, heq]
          · intro k hk
            exact ltJ_some_false.mp (hall k hk)
        · right
          have hksel : usageOf counts sel' < usageOf counts key := ltJ_some_true.mp hltm
          refine ⟨key :: l₁, l₂, sel', ?_, by simp [hdec], ?_, ?_, hsuf⟩
          · rw [hstep, heq]
          · cases m with
            | none => exact ltJ_none _
            | some mv =>
                have h1 : usageOf counts key < mv := ltJ_some_true.mp hlt
                exact ltJ_some_true.mpr (lt_trans hksel h1)
          · intro k hk
            rcases List.mem_cons.mp hk with rfl | hk
            · exact hksel
            · exact hpre k hk
      · have hstep : getNextApiKeyLoop counts (key :: ks) sel m
            = getNextApiKeyLoop counts ks sel m := by
          simp only [getNextApiKeyLoop, hlt, if_false]
          rfl
        have hm : ∃ mv, m = some mv ∧ mv ≤ usageOf counts key := by
          cases m with
          | none => exact absurd (ltJ_none _) hlt
          | some mv =>
              refine ⟨mv, rfl, ?_⟩
              exact ltJ_some_false.mp (Bool.not_eq_true _ ▸ hlt)
        rcases hm with ⟨mv, rfl, hmv⟩
        rcases ih sel (some mv) with ⟨heq, hall⟩ | ⟨l₁, l₂, sel', heq, hdec, hltm, hpre, hsuf⟩
        · left
          refine ⟨by rw [hstep, heq], ?_⟩
          intro k hk
          rcases List.mem_cons.mp hk with rfl | hk
          · exact ltJ_some_false.mpr hmv
          · exact hall k hk
        · right
          have hsel' : usageOf counts sel' < mv := ltJ_some_true.mp hltm
          refine ⟨key :: l₁, l₂, sel', by rw [hstep, heq], by simp [hdec], hltm, ?_, hsuf⟩
          intro k hk
          rcases List.mem_cons.mp hk with rfl | hk
          · exact lt_of_lt_of_le hsel' hmv
          · exact hpre k hk

lemma getNextApiKey_char (keys : List String) (counts : KeyCounts) (hne : keys ≠ []) :
    (getNextApiKey keys counts).1 ∈ keys ∧
    (∀ k ∈ keys, usageOf counts (getNextApiKey keys counts).1 ≤ usageOf counts k) ∧
    keys.find? (fun k => usageOf counts k == usageOf counts (getNextApiKey keys counts).1)
      = some (getNextApiKey keys counts).1 ∧
    (getNextApiKey keys counts).2 =
      fun k => if k = (getNextApiKey keys counts).1
               then some (usageOf counts (getNextApiKey keys counts).1 + 1) else counts k := by
  cases keys with
  | nil => exact absurd rfl hne
  | cons key0 rest =>
      rcases loop_char counts (key0 :: rest) key0 (counts key0) with ⟨heq, hall⟩ |
        ⟨l₁, l₂, sel', heq, hdec, hltm, hpre, hsuf⟩
      · have h0 := hall key0 (List.mem_cons_self _ _)
        cases hc0 : counts key0 with
        | none =>
            rw [hc0, ltJ_none] at h0
            exact absurd h0 (by simp)
        | some mv =>
            have humv : usageOf counts key0 = mv := by simp [usageOf, hc0]
            have hres : getNextApiKey (key0 :: rest) counts =
                (key0, fun k => if k = key0 then some (mv + 1) else counts k) := by
              simp only [getNextApiKey, List.headD]
              simp only [heq]
              simp [hc0]
            rw [hres]
            refine ⟨List.mem_cons_self _ _, ?_, ?_, ?_⟩
            · intro k hk
              have := hall k hk
              rw [hc0] at this
              rw [humv]
              exact ltJ_some_false.mp this
            · exact List.find?_cons_of_pos _ (by simp)
            · rw [humv]
      · have hres : getNextApiKey (key0 :: rest) counts =
            (sel', fun k => if k = sel' then some (usageOf counts sel' + 1) else counts k) := by
          simp only [getNextApiKey, List.headD, heq]
        rw [hres]
        have hmem : sel' ∈ key0 :: rest := by rw [hdec]; simp
        refine ⟨hmem, ?_, ?_, rfl⟩
        · intro k hk
          rw [hdec] at hk
          rcases List.mem_append.mp hk with hk | hk
          · exact le_of_lt (hpre k hk)
          · rcases List.mem_cons.mp hk with rfl | hk
            · exact le_rfl
            · exact hsuf k hk
        · rw [hdec, List.find?_append]
          have hnone : l₁.find? (fun k => usageOf counts k == usageOf counts sel') = none := by
            rw [List.find?_eq_none]
            intro k hk
            simp only [beq_iff_eq]
            exact Nat.ne_of_gt (hpre k hk)
          rw [hnone]
          simp [List.find?_cons_of_pos]

/-- C5 For every non-empty pool, `getNextApiKey` returns a pool member
whose usage count is minimal, is the first such member in pool order
(`find?` on equal usage returns it), and updates the map by incrementing
exactly that credential's count by one, leaving every other entry
unchanged. -/
theorem claim_C5_theorem (keys : List String) (counts : KeyCounts) (hne : keys ≠ []) :
    (getNextApiKey keys counts).1 ∈ keys ∧
    (∀ k ∈ keys, usageOf counts (getNextApiKey keys counts).1 ≤ usageOf counts k) ∧
    keys.find? (fun k => usageOf counts k == usageOf counts (getNextApiKey keys counts).1)
      = some (getNextApiKey keys counts).1 ∧
    (getNextApiKey keys counts).2 =
      fun k => if k = (getNextApiKey keys counts).1
               then some (usageOf counts (getNextApiKey keys counts).1 + 1) else counts k :=
  getNextApiKey_char keys counts hne

/-- C5 witness: the theorem applied to the pool `["a", "b"]` with usage
counts 2 and 1 (so `"b"` is selected and bumped to 2). -/
theorem claim_C5_witness :
    ((["a", "b"] : List String) ≠ []) ∧
    ((getNextApiKey ["a", "b"] countsC5W).1 ∈ ["a", "b"] ∧
     (∀ k ∈ ["a", "b"],
        usageOf countsC5W (getNextApiKey ["a", "b"] countsC5W).1 ≤ usageOf countsC5W k) ∧
     List.find? (fun k => usageOf countsC5W k ==
        usageOf countsC5W (getNextApiKey ["a", "b"] countsC5W).1) ["a", "b"]
       = some (getNextApiKey ["a", "b"] countsC5W).1 ∧
     (getNextApiKey ["a", "b"] countsC5W).2 =
       fun k => if k = (getNextApiKey ["a", "b"] countsC5W).1
                then some (usageOf countsC5W (getNextApiKey ["a", "b"] countsC5W).1 + 1)
                else countsC5W k) :=
  ⟨by decide, claim_C5_theorem ["a", "b"] countsC5W (by decide)⟩

lemma whileUsed_nil_used (keys : List String) (fuel : Nat) (k : String) (c : KeyCounts) :
    whileUsed keys [] fuel k c = (k, c) := by
  cases fuel with
  | zero => rfl
  | succ n => simp [whileUsed]

lemma attemptSelect_nil_used (keys : List String) (fuel : Nat) (c : KeyCounts) :
    attemptSelect keys fuel c [] =
      ((getNextApiKey keys c).1, (getNextApiKey keys c).2, [(getNextApiKey keys c).1]) := by
  unfold attemptSelect
  have h1 : (if keys.length ≤ ([] : List String).length then ([] : List String) else []) = [] :=
    ite_self []
  rw [h1]
  simp [whileUsed_nil_used]

lemma retry_counts_success (cfg : Config) (req : Obj) (oracle : Nat → FetchResult) (fuel : Nat)
    (c : KeyCounts) (hm : 1 ≤ cfg.maxRetries) (hS : successFetch (oracle 0)) :
    (generateWithRetry cfg req oracle fuel c).counts = (getNextApiKey cfg.geminiApiKeys c).2 := by
  obtain ⟨j, hj⟩ := hS
  obtain ⟨m, hm'⟩ : ∃ m, cfg.maxRetries = m + 1 := ⟨cfg.maxRetries - 1, by omega⟩
  unfold generateWithRetry
  rw [hm']
  simp only [generateWithRetryAux, attemptSelect_nil_used, generateImage]
  simp only [hj]

lemma initCounts_aux (keys : List String) :
    ∀ (c0 : KeyCounts) (k : String),
      keys.foldl (fun c key => fun k => if k = key then some 0 else c k) c0 k
        = if k ∈ keys then some 0 else c0 k := by
  induction keys with
  | nil => intro c0 k; simp
  | cons key keys ih =>
      intro c0 k
      simp only [List.foldl_cons, ih]
      by_cases hk : k ∈ keys
      · simp [hk]
      · by_cases hkey : k = key <;> simp [hk, hkey]

lemma initCounts_mem (keys : List String) {k : String} (hk : k ∈ keys) :
    initCounts keys k = some 0 := by
  unfold initCounts
  rw [initCounts_aux]
  simp [hk]

lemma balanced_init (keys : List String) : BalancedCounts keys (initCounts keys) :=
  ⟨0, fun _ hk => Or.inl (initCounts_mem keys hk)⟩

lemma balanced_step (keys : List String) (c : KeyCounts) (h : BalancedCounts keys c) :
    BalancedCounts keys (getNextApiKey keys c).2 := by
  cases keys with
  | nil => exact ⟨0, by simp⟩
  | cons key0 rest =>
      obtain ⟨hm_sel, hmin, _, hupd⟩ :=
        getNextApiKey_char (key0 :: rest) c (by simp)
      obtain ⟨m, hbal⟩ := h
      by_cases hex : ∃ k ∈ key0 :: rest, c k = some m
      · obtain ⟨k₀, hk₀, hck₀⟩ := hex
        have hu₀ : usageOf c k₀ = m := by simp [usageOf, hck₀]
        have husel : usageOf c (getNextApiKey (key0 :: rest) c).1 = m := by
          have h1 := hmin k₀ hk₀
          rw [hu₀] at h1
          rcases hbal _ hm_sel with h2 | h2
          · simp [usageOf, h2]
          · simp only [usageOf, h2, Option.getD_some] at h1 ⊢
            omega
        refine ⟨m, ?_⟩
        intro k hk
        rw [hupd]
        by_cases hks : k = (getNextApiKey (key0 :: rest) c).1
        · right
          simp only [if_pos hks, husel]
        · simp only [if_neg hks]
          exact hbal k hk
      · push_neg at hex
        have hall : ∀ k ∈ key0 :: rest, c k = some (m + 1) := by
          intro k hk
          rcases hbal k hk with h2 | h2
          · exact absurd h2 (hex k hk)
          · exact h2
        have husel : usageOf c (getNextApiKey (key0 :: rest) c).1 = m + 1 := by
          simp [usageOf, hall _ hm_sel]
        refine ⟨m + 1, ?_⟩
        intro k hk
        rw [hupd]
        by_cases hks : k = (getNextApiKey (key0 :: rest) c).1
        · right
          simp only [if_pos hks, husel]
        · simp only [if_neg hks]
          exact Or.inl (hall k hk)

lemma serveSucc_balanced (cfg : Config) (req : Obj) (oracle : Nat → FetchResult) (fuel : Nat)
    (hm : 1 ≤ cfg.maxRetries) (hS : successFetch (oracle 0)) :
    ∀ (N : Nat) (c : KeyCounts), BalancedCounts cfg.geminiApiKeys c →
      BalancedCounts cfg.geminiApiKeys (serveSucc cfg req oracle fuel N c) := by
  intro N
  induction N with
  | zero => intro c h; exact h
  | succ n ih =>
      intro c h
      simp only [serveSucc]
      rw [retry_counts_success cfg req oracle fuel c hm hS]
      exact ih _ (balanced_step _ _ h)

/-- C6 Starting from the all-zero usage map, after N requests that each
succeed on their first upstream call (N at most the pool size, though the
invariant needs no such bound), the usage counts of any two pool
credentials differ by at most 1. -/
theorem claim_C6_theorem (cfg : Config) (req : Obj) (oracle : Nat → FetchResult) (fuel N : Nat)
    (hm : 1 ≤ cfg.maxRetries) (hS : successFetch (oracle 0))
    (_hN : N ≤ cfg.geminiApiKeys.length) :
    ∀ k₁ ∈ cfg.geminiApiKeys, ∀ k₂ ∈ cfg.geminiApiKeys, ∀ a b,
      serveSucc cfg req oracle fuel N (initCounts cfg.geminiApiKeys) k₁ = some a →
      serveSucc cfg req oracle fuel N (initCounts cfg.geminiApiKeys) k₂ = some b →
      a ≤ b + 1 ∧ b ≤ a + 1 := by
  obtain ⟨m, hbal⟩ :=
    serveSucc_balanced cfg req oracle fuel hm hS N (initCounts cfg.geminiApiKeys)
      (balanced_init _)
  intro k₁ h₁ k₂ h₂ a b ha hb
  rcases hbal k₁ h₁ with h | h <;> rcases hbal k₂ h₂ with h' | h' <;>
    rw [ha] at h <;> rw [hb] at h' <;>
    injection h with h <;> injection h' with h' <;> omega

/-- C6 witness: two served requests on the two-key pool leave both usage
counts at 1. -/
theorem claim_C6_witness :
    (1 ≤ cfgTwoKeys.maxRetries ∧ successFetch (oracleOk 0) ∧
      2 ≤ cfgTwoKeys.geminiApiKeys.length ∧
      serveSucc cfgTwoKeys reqW oracleOk 0 2 (initCounts cfgTwoKeys.geminiApiKeys) "a" = some 1 ∧
      serveSucc cfgTwoKeys reqW oracleOk 0 2 (initCounts cfgTwoKeys.geminiApiKeys) "b" = some 1) ∧
    ((1 : Nat) ≤ 1 + 1 ∧ (1 : Nat) ≤ 1 + 1) :=
  ⟨⟨by decide, ⟨Json.obj [], rfl⟩, by decide, rfl, rfl⟩,
   claim_C6_theorem cfgTwoKeys reqW oracleOk 0 2 (by decide) ⟨Json.obj [], rfl⟩ (by decide)
     "a" (by decide) "b" (by decide) 1 1 rfl rfl⟩

lemma aux_attempts_get (cfg : Config) (req : Obj) (oracle : Nat → FetchResult) (fuel : Nat) :
    ∀ (left attempt : Nat) (c : KeyCounts) (used : List String) (le : Option JsError)
      (i : Nat) (a : AttemptRec),
      (generateWithRetryAux cfg req oracle fuel left attempt c used le).attempts.get? i = some a →
      a.outcome = classifyResponse (oracle (attempt + i)) ∧
      a.slept = (match classifyResponse (oracle (attempt + i)) with
                 | Except.ok _ => none
                 | Except.error e =>
                     if jsIncludes e.message "RATE_LIMITED"
                     then some (cfg.retryDelay * 2 ^ (attempt + i))
                     else if attempt + i < cfg.maxRetries - 1 then some cfg.retryDelay
                     else none) := by
  intro left
  induction left with
  | zero =>
      intro attempt c used le i a h
      simp [generateWithRetryAux] at h
  | succ n ih =>
      intro attempt c used le i a h
      simp only [generateWithRetryAux, generateImage] at h
      cases hcl : classifyResponse (oracle attempt) with
      | ok j =>
          simp only [hcl] at h
          cases i with
          | zero =>
              simp only [List.get?_cons_zero, Option.some.injEq] at h
              subst h
              simp [hcl]
          | succ i' =>
              simp at h
      | error e₀ =>
          simp only [hcl] at h
          cases i with
          | zero =>
              simp only [List.get?_cons_zero, Option.some.injEq] at h
              subst h
              simp [hcl]
          | succ i' =>
              simp only [List.get?_cons_succ] at h
              have harith : attempt + (i' + 1) = (attempt + 1) + i' := by omega
              rw [harith]
              exact ih (attempt + 1) _ _ (some e₀) i' a h

lemma aux_result_error (cfg : Config) (req : Obj) (oracle : Nat → FetchResult) (fuel : Nat) :
    ∀ (left attempt : Nat) (c : KeyCounts) (used : List String) (le : Option JsError) (e : JsError),
      (generateWithRetryAux cfg req oracle fuel left attempt c used le).result = Except.error e →
      ((generateWithRetryAux cfg req oracle fuel left attempt c used le).attempts = [] ∧
        e = le.getD ⟨"Max retries exceeded"⟩) ∨
      (∃ hne : (generateWithRetryAux cfg req oracle fuel left attempt c used le).attempts ≠ [],
        ((generateWithRetryAux cfg req oracle fuel left attempt c used le).attempts.getLast
          hne).outcome = Except.error e) := by
  intro left
  induction left with
  | zero =>
      intro attempt c used le e h
      simp only [generateWithRetryAux, Except.error.injEq] at h
      exact Or.inl ⟨rfl, h.symm⟩
  | succ n ih =>
      intro attempt c used le e h
      cases hcl : classifyResponse (oracle attempt) with
      | ok j =>
          have hres : (generateWithRetryAux cfg req oracle fuel (n + 1) attempt c used le).result =
              Except.ok j := by
            simp only [generateWithRetryAux, generateImage, hcl]
          rw [hres] at h
          exact absurd h (by simp)
      | error e₀ =>
          have hat : (generateWithRetryAux cfg req oracle fuel (n + 1) attempt c used le).attempts =
              ⟨(attemptSelect cfg.geminiApiKeys fuel c used).1, translatedBody req,
                Except.error e₀,
                if jsIncludes e₀.message "RATE_LIMITED" then some (cfg.retryDelay * 2 ^ attempt)
                else if attempt < cfg.maxRetries - 1 then some cfg.retryDelay else none⟩ ::
              (generateWithRetryAux cfg req oracle fuel n (attempt + 1)
                (attemptSelect cfg.geminiApiKeys fuel c used).2.1
                (attemptSelect cfg.geminiApiKeys fuel c used).2.2 (some e₀)).attempts := by
            simp only [generateWithRetryAux, generateImage, hcl]
          have hres : (generateWithRetryAux cfg req oracle fuel (n + 1) attempt c used le).result =
              (generateWithRetryAux cfg req oracle fuel n (attempt + 1)
                (attemptSelect cfg.geminiApiKeys fuel c used).2.1
                (attemptSelect cfg.geminiApiKeys fuel c used).2.2 (some e₀)).result := by
            simp only [generateWithRetryAux, generateImage, hcl]
          rw [hres] at h
          rcases ih (attempt + 1) _ _ (some e₀) e h with ⟨hat2, he⟩ | ⟨hne, hl⟩
          · right
            rw [hat, hat2]
            refine ⟨by simp, ?_⟩
            simp [he]
          · right
            rw [hat]
            refine ⟨by simp, ?_⟩
            rw [List.getLast_cons hne]
            exact hl

/-- C7 amended: the sleep after each attempt is decided by a substring
test on the error message, not by the outcome kind — an attempt whose
error message contains `RATE_LIMITED` (every 429, but also any other
failure whose message text happens to contain that substring, e.g. an
upstream error body echoed into `UPSTREAM_API_ERROR: ...`) is followed by
a `retryDelay * 2 ^ attemptIndex` wait even on the last attempt; every
other failure is followed by a flat `retryDelay` wait unless it was the
last attempt; and after `maxRetries` failed attempts the loop fails with
the last observed error, or `Max retries exceeded` when no attempt ran
(`maxRetries = 0`). -/
theorem claim_C7_theorem (cfg : Config) (req : Obj) (oracle : Nat → FetchResult) (fuel : Nat)
    (counts : KeyCounts) :
    (∀ (i : Nat) (a : AttemptRec),
       (generateWithRetry cfg req oracle fuel counts).attempts.get? i = some a →
       a.outcome = classifyResponse (oracle i) ∧
       a.slept = (match classifyResponse (oracle i) with
                  | Except.ok _ => none
                  | Except.error e =>
                      if jsIncludes e.message "RATE_LIMITED" then some (cfg.retryDelay * 2 ^ i)
                      else if i < cfg.maxRetries - 1 then some cfg.retryDelay
                      else none)) ∧
    (∀ e, (generateWithRetry cfg req oracle fuel counts).result = Except.error e →
       ((generateWithRetry cfg req oracle fuel counts).attempts = [] ∧
         e.message = "Max retries exceeded") ∨
       (∃ hne : (generateWithRetry cfg req oracle fuel counts).attempts ≠ [],
         ((generateWithRetry cfg req oracle fuel counts).attempts.getLast hne).outcome
           = Except.error e)) := by
  constructor
  · intro i a h
    have := aux_attempts_get cfg req oracle fuel cfg.maxRetries 0 counts [] none i a h
    simpa using this
  · intro e h
    rcases aux_result_error cfg req oracle fuel cfg.maxRetries 0 counts [] none e h with
      ⟨hat, he⟩ | hr
    · exact Or.inl ⟨hat, by rw [he]; rfl⟩
    · exact Or.inr hr

/-- C7 counterexample: by the claim a GenericUpstreamError attempt is
followed by a flat `baseDelay` (1000 ms) wait, but after attempt index 1
of this run the code sleeps `1000 * 2 ^ 1 = 2000` ms, because the 404
body text `RATE_LIMITED` ends up in the error message and the
`includes("RATE_LIMITED")` test routes it to exponential backoff. -/
theorem claim_C7_counterexample :
    ¬ (((generateWithRetry cfgOneKey3 reqW oracle404RL 0 (initCounts ["k"])).attempts.get? 1).map
        AttemptRec.slept = some (some 1000)) := by decide

/-- C7 witness: the amended theorem applied to attempt index 1 of the
404/`RATE_LIMITED` run, yielding its 2000 ms exponential sleep. -/
theorem claim_C7_witness :
    (generateWithRetry cfgOneKey3 reqW oracle404RL 0 (initCounts ["k"])).attempts.get? 1 =
        some attemptC7W ∧
    attemptC7W.outcome = classifyResponse (oracle404RL 1) ∧
    attemptC7W.slept = some 2000 := by
  have h := (claim_C7_theorem cfgOneKey3 reqW oracle404RL 0 (initCounts ["k"])).1 1 attemptC7W rfl
  exact ⟨rfl, h.1, rfl⟩

/-- C1 counterexample: after a retry run in which every upstream call
returned 403 with credential `k`, the credential still has its usage-count
entry (it was never removed) and the very next rotator call selects `k`
again — refuting durable recording, pool removal and never-again
selection. -/
theorem claim_C1_counterexample :
    ¬ ((generateWithRetry cfgOneKey3 reqW oracle403 0 (initCounts ["k"])).counts "k" = none ∧
       (getNextApiKey ["k"]
         (generateWithRetry cfgOneKey3 reqW oracle403 0 (initCounts ["k"])).counts).1 ≠ "k") := by
  decide

lemma getNextApiKey_counts_isSome (keys : List String) (c : KeyCounts) (k : String)
    (h : (c k).isSome) : ((getNextApiKey keys c).2 k).isSome := by
  simp only [getNextApiKey]
  split
  · dsimp only
    split
    · simp
    · exact h
  · exact h

lemma whileUsed_counts_isSome (keys used : List String) (k : String) :
    ∀ (fuel : Nat) (k0 : String) (c : KeyCounts), (c k).isSome →
      ((whileUsed keys used fuel k0 c).2 k).isSome := by
  intro fuel
  induction fuel with
  | zero => intro k0 c h; exact h
  | succ n ih =>
      intro k0 c h
      simp only [whileUsed]
      split
      · exact ih _ _ (getNextApiKey_counts_isSome keys c k h)
      · exact h

lemma attemptSelect_counts_isSome (keys used : List String) (fuel : Nat) (c : KeyCounts)
    (k : String) (h : (c k).isSome) : ((attemptSelect keys fuel c used).2.1 k).isSome := by
  unfold attemptSelect
  exact whileUsed_counts_isSome keys _ k fuel _ _ (getNextApiKey_counts_isSome keys c k h)

lemma aux_counts_isSome (cfg : Config) (req : Obj) (oracle : Nat → FetchResult) (fuel : Nat) :
    ∀ (left attempt : Nat) (c : KeyCounts) (used : List String) (le : Option JsError) (k : String),
      (c k).isSome →
      ((generateWithRetryAux cfg req oracle fuel left attempt c used le).counts k).isSome := by
  intro left
  induction left with
  | zero => intro attempt c used le k h; exact h
  | succ n ih =>
      intro attempt c used le k h
      cases hcl : classifyResponse (oracle attempt) with
      | ok j =>
          have hc : (generateWithRetryAux cfg req oracle fuel (n + 1) attempt c used le).counts =
              (attemptSelect cfg.geminiApiKeys fuel c used).2.1 := by
            simp only [generateWithRetryAux, generateImage, hcl]
          rw [hc]
          exact attemptSelect_counts_isSome _ _ _ _ _ h
      | error e₀ =>
          have hc : (generateWithRetryAux cfg req oracle fuel (n + 1) attempt c used le).counts =
              (generateWithRetryAux cfg req oracle fuel n (attempt + 1)
                (attemptSelect cfg.geminiApiKeys fuel c used).2.1
                (attemptSelect cfg.geminiApiKeys fuel c used).2.2 (some e₀)).counts := by
            simp only [generateWithRetryAux, generateImage, hcl]
          rw [hc]
          exact ih _ _ _ _ k (attemptSelect_counts_isSome _ _ _ _ _ h)

/-- C1 amended: a 400 or 403 upstream response is classified as the
generic `UPSTREAM_API_ERROR: <status> - <body>` error — the code has no
InvalidCredential class and no durable invalid-credential store — and a
retry run never removes a usage-count entry; the configured pool is
immutable, so the credential stays selectable (the counterexample shows it
being selected again). -/
theorem claim_C1_theorem :
    (∀ (s : Nat) (hdrs : List (String × String)) (body : String) (j : Json),
       s = 400 ∨ s = 403 →
       classifyResponse (FetchResult.ok s hdrs body j) =
         Except.error ⟨"UPSTREAM_API_ERROR: " ++ toString s ++ " - " ++ body⟩) ∧
    (∀ (cfg : Config) (req : Obj) (oracle : Nat → FetchResult) (fuel : Nat) (counts : KeyCounts)
       (k : String), (counts k).isSome →
       ((generateWithRetry cfg req oracle fuel counts).counts k).isSome) := by
  constructor
  · intro s hdrs body j hs
    rcases hs with rfl | rfl <;> rfl
  · intro cfg req oracle fuel counts k h
    exact aux_counts_isSome cfg req oracle fuel cfg.maxRetries 0 counts [] none k h

/-- C1 witness: the amended theorem applied to a concrete 400 response
and to the 403 run of the counterexample. -/
theorem claim_C1_witness :
    ((400 : Nat) = 400 ∨ (400 : Nat) = 403) ∧
    classifyResponse (FetchResult.ok 400 [] "API key not valid" Json.null) =
      Except.error ⟨"UPSTREAM_API_ERROR: 400 - API key not valid"⟩ ∧
    ((initCounts ["k"] "k").isSome ∧
      ((generateWithRetry cfgOneKey3 reqW oracle403 0 (initCounts ["k"])).counts "k").isSome) := by
  refine ⟨Or.inl rfl, ?_, by decide, ?_⟩
  · exact (claim_C1_theorem.1 400 [] "API key not valid" Json.null (Or.inl rfl)).trans rfl
  · exact claim_C1_theorem.2 cfgOneKey3 reqW oracle403 0 (initCounts ["k"]) "k" (by decide)

/-- C2 counterexample: invoked on an empty-pool state with a valid
request, the handler does not answer 503 — it proceeds into the retry
loop and makes an upstream call (with the JavaScript-`undefined`
credential), returning the upstream-derived 200. -/
theorem claim_C2_counterexample :
    ¬ ((handleRequest cfgNoKeys (postReq (Except.ok reqW)) oracleOk (initCounts []) 0).resp.status
        = 503 ∧
       (handleRequest cfgNoKeys (postReq (Except.ok reqW)) oracleOk
         (initCounts []) 0).events.countP Event.isUpstream = 0) := by
  decide

lemma isAuthorized_status (cfg : Config) (req : InboundRequest) (r : ResponseDesc)
    (h : isAuthorized cfg req = some r) : r.status = 401 := by
  unfold isAuthorized at h
  split at h
  · exact absurd h (by simp)
  · split at h
    · cases h
      rfl
    · dsimp only at h
      split_ifs at h
      · cases h
        rfl
      · cases h
        rfl

/-- C2 amended: an empty credential pool is rejected at construction
time with the `No Gemini API keys provided` error, so a running process
never serves with one; the request handler itself performs no
pool-emptiness check and no response it can produce has status 503 (there
is no `no_valid_keys` error type in the code). -/
theorem claim_C2_theorem :
    (∀ envVal, parseGeminiKeys envVal = [] →
       constructorKeysCheck envVal = Except.error
         "No Gemini API keys provided. Ensure GEMINI_API_KEYS is set in your environment or in a .env file.") ∧
    (∀ (cfg : Config) (req : InboundRequest) (oracle : Nat → FetchResult) (counts : KeyCounts)
       (fuel : Nat), (handleRequest cfg req oracle counts fuel).resp.status ≠ 503) := by
  constructor
  · intro envVal h
    unfold constructorKeysCheck
    rw [h]
    rfl
  · intro cfg req oracle counts fuel
    unfold handleRequest
    split
    · dsimp only
      omega
    · split
      · rename_i r heq
        have h401 := isAuthorized_status cfg req r heq
        dsimp only
        simp [h401]
      · split
        · dsimp only
          omega
        · split
          · split <;> (dsimp only; omega)
          · split
            · dsimp only
              omega
            · dsimp only
              split
              · dsimp only
                omega
              · split <;> (dsimp only; omega)

/-- C2 witness: the amended theorem applied to the empty key-list
environment value and to a concrete request on the empty-pool state. -/
theorem claim_C2_witness :
    parseGeminiKeys "" = [] ∧
    constructorKeysCheck "" = Except.error
      "No Gemini API keys provided. Ensure GEMINI_API_KEYS is set in your environment or in a .env file." ∧
    (handleRequest cfgNoKeys (postReq (Except.ok reqW)) oracleOk (initCounts []) 0).resp.status
      ≠ 503 :=
  ⟨by decide, claim_C2_theorem.1 "" (by decide),
   claim_C2_theorem.2 cfgNoKeys (postReq (Except.ok reqW)) oracleOk (initCounts []) 0⟩

lemma retry_run_success (cfg : Config) (req : Obj) (oracle : Nat → FetchResult) (fuel : Nat)
    (c : KeyCounts) (hm : 1 ≤ cfg.maxRetries) {j : Json}
    (hj : classifyResponse (oracle 0) = Except.ok j) :
    (generateWithRetry cfg req oracle fuel c).result = Except.ok j := by
  obtain ⟨m, hm'⟩ : ∃ m, cfg.maxRetries = m + 1 := ⟨cfg.maxRetries - 1, by omega⟩
  unfold generateWithRetry
  rw [hm']
  simp only [generateWithRetryAux, generateImage, hj]

/-- C3 amended: for an upstream call answered with any 2xx status, the
handler replies with status 200 always (the upstream status is not
mirrored), headers exactly `Content-Type: application/json` plus the CORS
header (upstream headers are dropped; there is no content-encoding
handling), and a body that is the re-serialization of the upstream JSON
(`JSON.stringify(await response.json())`), not the raw bytes. -/
theorem claim_C3_theorem (cfg : Config) (obj : Obj) (oracle : Nat → FetchResult)
    (counts : KeyCounts) (fuel : Nat) (s : Nat) (hdrs : List (String × String)) (btext : String)
    (j : Json) (hAuth : cfg.proxyAuthKeys = [])
    (hModel : jsTruthy (objGet obj "model") = true)
    (hPrompt : jsTruthy (objGet obj "prompt") = true)
    (hmr : 1 ≤ cfg.maxRetries)
    (hor : oracle 0 = FetchResult.ok s hdrs btext j)
    (h2xx : 200 ≤ s ∧ s ≤ 299) :
    (handleRequest cfg (postReq (Except.ok obj)) oracle counts fuel).resp =
      ⟨200, [jsonCT, corsStar], some j⟩ := by
  have hcl : classifyResponse (oracle 0) = Except.ok j := by
    rw [hor]
    simp only [classifyResponse]
    rw [if_pos h2xx]
  have hres := retry_run_success cfg obj oracle fuel counts hmr hcl
  simp [handleRequest, postReq, isAuthorized, hAuth, hModel, hPrompt, hres]

/-- C3 counterexample: with the upstream answering 201 and the header
`X-Upstream: yes`, the handler's response has status 200 (not the
mirrored 201) and does not carry the upstream header. -/
theorem claim_C3_counterexample :
    ¬ ((handleRequest cfgOneKey3 (postReq (Except.ok reqW)) oracle201
          (initCounts ["k"]) 0).resp.status = 201 ∧
       ("X-Upstream", "yes") ∈ (handleRequest cfgOneKey3 (postReq (Except.ok reqW)) oracle201
          (initCounts ["k"]) 0).resp.headers) := by
  decide

/-- C3 witness: the amended theorem applied to the 201 upstream
response. -/
theorem claim_C3_witness :
    (cfgOneKey3.proxyAuthKeys = [] ∧ 1 ≤ cfgOneKey3.maxRetries ∧
      oracle201 0 = FetchResult.ok 201 [("X-Upstream", "yes")] "" (Json.obj []) ∧
      200 ≤ 201 ∧ 201 ≤ 299) ∧
    (handleRequest cfgOneKey3 (postReq (Except.ok reqW)) oracle201 (initCounts ["k"]) 0).resp =
      ⟨200, [jsonCT, corsStar], some (Json.obj [])⟩ :=
  ⟨⟨rfl, by decide, rfl, by decide, by decide⟩,
   claim_C3_theorem cfgOneKey3 reqW oracle201 (initCounts ["k"]) 0 201 [("X-Upstream", "yes")]
     "" (Json.obj []) rfl (by decide) (by decide) (by decide) rfl ⟨by decide, by decide⟩⟩

/-- C4 amended: a request whose retry loop ends in a terminal failure is
answered with the JSON envelope `{error: {message, type: "api_error"}}`
(plus the CORS header), and its HTTP status is 400 exactly when the final
error message starts with `UPSTREAM_API_ERROR` — the upstream status
embedded in that message is not used — and 500 otherwise (including
terminal rate-limit and server errors). -/
theorem claim_C4_theorem (cfg : Config) (obj : Obj) (oracle : Nat → FetchResult)
    (counts : KeyCounts) (fuel : Nat) (e : JsError) (hAuth : cfg.proxyAuthKeys = [])
    (hModel : jsTruthy (objGet obj "model") = true)
    (hPrompt : jsTruthy (objGet obj "prompt") = true)
    (herr : (generateWithRetry cfg obj oracle fuel counts).result = Except.error e) :
    (handleRequest cfg (postReq (Except.ok obj)) oracle counts fuel).resp =
      ⟨if jsStartsWith e.message "UPSTREAM_API_ERROR" then 400 else 500, [jsonCT, corsStar],
       some (errEnvelope e.message "api_error")⟩ := by
  simp [handleRequest, postReq, isAuthorized, hAuth, hModel, hPrompt, herr]

/-- C4 counterexample: the terminal classified error of the 404 run
carries upstream status 404, but the handler's response status is 400,
not 404 — the status is not taken from the classified error. -/
theorem claim_C4_counterexample :
    ¬ ((handleRequest cfgOneKey3 (postReq (Except.ok reqW)) oracle404
          (initCounts ["k"]) 0).resp.status = 404) := by
  decide

/-- C4 witness: the amended theorem applied to the 404 run. -/
theorem claim_C4_witness :
    ((generateWithRetry cfgOneKey3 reqW oracle404 0 (initCounts ["k"])).result =
        Except.error ⟨"UPSTREAM_API_ERROR: 404 - nf"⟩) ∧
    (handleRequest cfgOneKey3 (postReq (Except.ok reqW)) oracle404 (initCounts ["k"]) 0).resp =
      ⟨400, [jsonCT, corsStar], some (errEnvelope "UPSTREAM_API_ERROR: 404 - nf" "api_error")⟩ := by
  constructor
  · rfl
  · have h := claim_C4_theorem cfgOneKey3 reqW oracle404 (initCounts ["k"]) 0
      ⟨"UPSTREAM_API_ERROR: 404 - nf"⟩ rfl (by decide) (by decide) rfl
    exact h.trans rfl
